import Mathlib

/-!
Verification of the PubSubHubbub hub implementation (hub/main.py).

The Python source is shallowly embedded: each datastore model class becomes a
Lean structure, each method becomes a pure function that takes the entity (and
any datastore/memcache context it reads) and returns the updated entity or an
explicit deleted/stored outcome.  Machine-independent Python values map as
follows: datetimes and timedeltas are seconds as `Int`; entity keys are their
string names; the memcache is the list of currently held lock keys; the sha1
hash from `hashlib` (an external library) is an abstract function parameter
`h : String → String`; the feed parser (`feed_diff`, also external) is
represented by its output, the `entries_map` association list.
-/

/-! ### Config parameters (hub/main.py lines 127-163) -/

def EXPIRATION_DELTA : Int := 90 * 24 * 60 * 60

def LEASE_PERIOD_SECONDS : Int := 15

def EVENT_SUBSCRIBER_CHUNK_SIZE : Nat := 10

def MAX_SUBSCRIPTION_CONFIRM_FAILURES : Nat := 10

def SUBSCRIPTION_RETRY_PERIOD : Int := 300

def MAX_FEED_PULL_FAILURES : Nat := 9

def FEED_PULL_RETRY_PERIOD : Int := 60

def MAX_DELIVERY_FAILURES : Nat := 8

def DELIVERY_RETRY_PERIOD : Int := 60

def BOOSTRAP_FEED_CHUNK_SIZE : Nat := 200

def POLLING_BOOTSTRAP_PERIOD : Int := 10800

def ATOM : String := "atom"

def RSS : String := "rss"

/-! ### Helper functions (hub/main.py lines 174-181) -/

/-- `get_hash_key_name(value)`: entity key name derived from a value's hash.
The sha1 hash itself comes from the external `hashlib` library, so it is the
abstract parameter `h`. -/
def get_hash_key_name (h : String → String) (value : String) : String :=
  "hash_" ++ h value

/-! ### Python dict semantics

`dict(pairs)` keeps the last value bound to each key; we realize it as an
association list built by insert-or-overwrite so each key occurs once. -/

def pyDictInsert (l : List (String × α)) (kv : String × α) : List (String × α) :=
  if l.any (fun p => p.1 == kv.1) then
    l.map (fun p => if p.1 == kv.1 then kv else p)
  else
    l ++ [kv]

def pyDict (l : List (String × α)) : List (String × α) :=
  l.foldl pyDictInsert []

/-! ### Memcache model

The memcache holds the set of lock keys currently set (lease TTLs are not
modeled; claims here do not depend on expiry).  `add_multi` returns the keys
it did NOT set because they were already present; `delete_multi` removes
keys.  Each call is also recorded in an operation trace so that theorems can
talk about which cache operations an invocation performed. -/

abbrev Cache := List String

inductive CacheOp where
  | addMulti (keys : List String)
  | deleteMulti (keys : List String)
deriving DecidableEq, Repr

def cacheAddMulti (cache : Cache) (keys : List String) : List String × Cache :=
  (keys.filter (fun k => cache.contains k),
   cache ++ keys.filter (fun k => !cache.contains k))

def cacheDeleteMulti (cache : Cache) (keys : List String) : Cache :=
  cache.filter (fun k => !keys.contains k)

/-! ### query_and_own (hub/main.py lines 184-250) -/

/-- Result of `query_and_own`: a single optional entity when `work_count == 1`,
a list of entities otherwise. -/
inductive QOResult (α : Type) where
  | single (item : Option α)
  | multiple (items : List α)
deriving DecidableEq, Repr

structure QOOutcome (α : Type) where
  result : QOResult α
  cache : Cache
  ops : List CacheOp
deriving DecidableEq, Repr

/-- The locking phase of `query_and_own` (source lines 227-250), applied to
the already-sampled `possible_work`. -/
def query_and_own_lock (key : α → String) (possible_work : List α) (cache : Cache)
    (work_count : Nat) : QOOutcome α :=
  let work_map := pyDict (possible_work.map (fun w => (key w, w)))
  let try_keys := work_map.map Prod.fst
  let add_out := cacheAddMulti cache try_keys
  let not_set_keys := add_out.1
  let cache1 := add_out.2
  let locked_keys := try_keys.filter (fun k => !not_set_keys.contains k)
  let reset_keys := locked_keys.drop work_count
  let cache2 := if reset_keys.isEmpty then cache1 else cacheDeleteMulti cache1 reset_keys
  let ops := if reset_keys.isEmpty then [CacheOp.addMulti try_keys]
             else [CacheOp.addMulti try_keys, CacheOp.deleteMulti reset_keys]
  let work := (locked_keys.take work_count).filterMap
      (fun k => (work_map.find? (fun p => p.1 == k)).map Prod.snd)
  { result := if work_count == 1 then QOResult.single work.head? else QOResult.multiple work,
    cache := cache2, ops := ops }

/-- `query_and_own(model_class, gql_query, lease_period, work_count,
sample_ratio, lock_ratio, **bindings)`.

`work_to_do` is the list the GQL query fetch returned (already truncated to
`sample_size = work_count * sample_ratio` by the fetch; the per-model query
itself is modeled at each call site).  `key w` is `str(w.key())`.  `sample`
stands for `random.sample`; theorems quantify over it, constraining it by the
hypothesis that a sample is drawn from its input list where needed.  The
function touches only the memcache, never the datastore. -/
def query_and_own (key : α → String) (sample : List α → Nat → List α)
    (work_to_do : List α) (cache : Cache)
    (work_count : Nat) (lock_ratio : Nat) : QOOutcome α :=
  if work_to_do.isEmpty then
    { result := if work_count == 1 then QOResult.single none else QOResult.multiple [],
      cache := cache, ops := [] }
  else
    query_and_own_lock key
      (sample work_to_do (min work_to_do.length (lock_ratio * work_count)))
      cache work_count

/-! ### Subscription (hub/main.py lines 302-538) -/

inductive SubState where
  | not_verified
  | verified
  | to_delete
deriving DecidableEq, Repr

structure Subscription where
  callback : String
  callback_hash : String
  topic : String
  topic_hash : String
  created_time : Int
  last_modified : Int
  expiration_time : Int
  eta : Int
  confirm_failures : Nat
  verify_token : Option String
  subscription_state : SubState
deriving DecidableEq, Repr

/-- `Subscription.create_key_name(callback, topic)` (lines 327-338). -/
def Subscription.create_key_name (h : String → String) (callback topic : String) : String :=
  get_hash_key_name h (callback ++ "\n" ++ topic)

/-- `Subscription.request_insert(callback, topic, verify_token)` (lines
371-404), as its transaction body: `existing` is the entity currently stored
under `create_key_name(callback, topic)`; the result pairs the returned
`sub_is_new` with the entity stored under that key afterwards.  In the
existing case the code neither assigns a field nor calls `put()`.  For a new
entity, `created_time`/`eta` are `auto_now_add` and `last_modified` is
`auto_now`, all equal to `now` on first put; `subscription_state` keeps its
declared default `STATE_NOT_VERIFIED`. -/
def Subscription.request_insert (h : String → String) (existing : Option Subscription)
    (callback topic verify_token : String) (now : Int) : Bool × Option Subscription :=
  match existing with
  | some sub => (false, some sub)
  | none =>
      (true, some {
        callback := callback, callback_hash := h callback,
        topic := topic, topic_hash := h topic,
        created_time := now, last_modified := now,
        expiration_time := now + EXPIRATION_DELTA,
        eta := now, confirm_failures := 0,
        verify_token := some verify_token,
        subscription_state := SubState.not_verified })

/-- Outcome of a method that either deletes its entity or puts an updated
version of it. -/
inductive EntityOutcome (α : Type) where
  | deleted
  | stored (entity : α)
deriving DecidableEq, Repr

/-- `Subscription.confirm_failed(max_failures, retry_period, now)` (lines
499-519).  The source computes `retry_delay` from `confirm_failures` before
incrementing it; `put()` refreshes the `auto_now` field `last_modified`. -/
def Subscription.confirm_failed (sub : Subscription) (max_failures : Nat)
    (retry_period : Int) (now : Int) : EntityOutcome Subscription :=
  if sub.confirm_failures ≥ max_failures then
    EntityOutcome.deleted
  else
    EntityOutcome.stored { sub with
      eta := now + retry_period * 2 ^ sub.confirm_failures,
      confirm_failures := sub.confirm_failures + 1,
      last_modified := now }

/-- A concrete subscription used for counterexamples and witnesses. -/
def demoSub : Subscription :=
  { callback := "http://cb.example.com/endpoint", callback_hash := "cbh",
    topic := "http://pub.example.com/feed", topic_hash := "th",
    created_time := 0, last_modified := 0, expiration_time := 7776000,
    eta := 0, confirm_failures := 0, verify_token := some "tok",
    subscription_state := SubState.not_verified }

/-! ### FeedToFetch (hub/main.py lines 541-619) -/

structure FeedToFetch where
  topic : String
  eta : Int
  fetching_failures : Nat
  totally_failed : Bool
deriving DecidableEq, Repr

/-- `FeedToFetch.fetch_failed(max_failures, retry_period, now)` (lines
580-602).  Both branches end in `put()`, so the record persists either way;
the backoff exponent is read before the counter is incremented. -/
def FeedToFetch.fetch_failed (f : FeedToFetch) (max_failures : Nat)
    (retry_period : Int) (now : Int) : FeedToFetch :=
  if f.fetching_failures ≥ max_failures then
    { f with totally_failed := true }
  else
    { f with eta := now + retry_period * 2 ^ f.fetching_failures,
             fetching_failures := f.fetching_failures + 1 }

/-- Consecutive `fetch_failed` calls, one per element of `nows`. -/
def FeedToFetch.fail_sequence (max_failures : Nat) (retry_period : Int) :
    FeedToFetch → List Int → FeedToFetch
  | f, [] => f
  | f, now :: rest =>
      FeedToFetch.fail_sequence max_failures retry_period
        (f.fetch_failed max_failures retry_period now) rest

/-- The GQL query of `FeedToFetch.get_work` (lines 616-619): ready items
(`eta <= :now AND totally_failed = False`), ordered by ascending `eta`,
fetched up to `limit = sample_size`. -/
def FeedToFetch.work_query (store : List FeedToFetch) (now : Int) (limit : Nat) :
    List FeedToFetch :=
  ((store.filter (fun f => decide (f.eta ≤ now) && !f.totally_failed)).insertionSort
      (fun a b => a.eta ≤ b.eta)).take limit

/-- `FeedToFetch.get_work(now)` (lines 604-619): the dispatcher with
`work_count = 1` and the default `sample_ratio = 20` and `lock_ratio = 4`,
over the current datastore contents `store`. -/
def FeedToFetch.get_work (h : String → String)
    (sample : List FeedToFetch → Nat → List FeedToFetch)
    (store : List FeedToFetch) (cache : Cache) (now : Int) : QOOutcome FeedToFetch :=
  query_and_own (fun f => get_hash_key_name h f.topic) sample
    (FeedToFetch.work_query store now (1 * 20)) cache 1 4

/-- A concrete feed work item used for witnesses. -/
def demoFeed : FeedToFetch :=
  { topic := "http://pub.example.com/feed", eta := 0, fetching_failures := 0,
    totally_failed := false }

/-- The same item after nine failures. -/
def demoFeed9 : FeedToFetch :=
  { demoFeed with fetching_failures := 9 }

/-! ### FeedEntryRecord and find_feed_updates (hub/main.py lines 697-765,
1269-1320) -/

structure FeedEntryRecord where
  entry_id : String
  entry_id_hash : String
  entry_content_hash : String
deriving DecidableEq, Repr

/-- `FeedEntryRecord.create_entry_for_topic(topic, entry_id, content_hash)`
(lines 742-765); the entity key derives from the `entry_id`, the topic only
fixes the parent entity group. -/
def FeedEntryRecord.create_entry_for_topic (h : String → String)
    (entry_id content_hash : String) : FeedEntryRecord :=
  { entry_id := entry_id, entry_id_hash := h entry_id,
    entry_content_hash := content_hash }

/-- The stored `FeedEntryRecord`s of one topic, keyed by `entry_id` with the
stored `entry_content_hash` as value. -/
abbrev EntryStore := List (String × String)

/-- `FeedEntryRecord.get_entries_for_topic(topic, entry_id_list)` (lines
726-740): batch get by key with the `None`s filtered out. -/
def get_entries_for_topic (store : EntryStore) (ids : List String) : EntryStore :=
  ids.filterMap (fun i => store.find? (fun p => p.1 == i))

/-- The `try/except KeyError` hash comparison at lines 1309-1314: true iff a
stored hash exists for the entry and equals the new hash (the `continue`
case). -/
def entry_seen (existing_dict : String → Option String)
    (entry_id new_hash : String) : Bool :=
  match existing_dict entry_id with
  | some old_content_hash => old_content_hash == new_hash
  | none => false

/-- The per-entry loop of `find_feed_updates` (lines 1304-1318): an entry is
kept iff it has no stored record or the stored content hash differs from the
hash of its current content. -/
def diff_entries (h : String → String) (existing_dict : String → Option String) :
    List (String × String) → List FeedEntryRecord × List String
  | [] => ([], [])
  | (entry_id, new_content) :: rest =>
      let new_content_hash := h new_content
      let tail_result := diff_entries h existing_dict rest
      if entry_seen existing_dict entry_id new_content_hash then tail_result
      else
        (FeedEntryRecord.create_entry_for_topic h entry_id new_content_hash ::
          tail_result.1,
         new_content :: tail_result.2)

/-- `find_feed_updates(topic, format, feed_content)` (lines 1269-1320) after
the parse: `entries_map` is the parser's `(entry_id, raw entry XML)` output
and `store` holds the topic's stored records; the `header_footer` passthrough
from the parser is omitted.  Returns `(entities_to_save, entry_payloads)`. -/
def find_feed_updates (h : String → String) (store : EntryStore)
    (entries_map : List (String × String)) : List FeedEntryRecord × List String :=
  let existing_entries := get_entries_for_topic store (entries_map.map Prod.fst)
  let existing_dict := fun eid =>
    (existing_entries.find? (fun p => p.1 == eid)).map Prod.snd
  diff_entries h existing_dict entries_map

/-- The transactional `db.put(entities_to_save)` for the entry records: each
record overwrites the entity stored under its `entry_id`. -/
def put_records (store : EntryStore) (recs : List FeedEntryRecord) : EntryStore :=
  recs.map (fun r => (r.entry_id, r.entry_content_hash)) ++
    store.filter (fun p => !(recs.any (fun r => r.entry_id == p.1)))

/-! ### EventToDeliver (hub/main.py lines 768-972) -/

inductive DeliveryMode where
  | normal
  | retry
deriving DecidableEq, Repr

/-- `EventToDeliver`.  The payload and the header/footer it is spliced from
are character sequences (Python unicode strings index by code point);
`failed_callbacks` holds Subscription key names. -/
structure EventToDeliver where
  topic : String
  topic_hash : String
  payload : List Char
  last_callback : String
  failed_callbacks : List String
  delivery_mode : DeliveryMode
  retry_attempts : Nat
  last_modified : Int
  totally_failed : Bool
deriving DecidableEq, Repr

/-- Scan for `tag` at positions `i, i-1, ..., 0` of `s`, highest first. -/
def rfind_from (s tag : List Char) : Nat → Option Nat
  | 0 => if tag.isPrefixOf s then some 0 else none
  | i + 1 => if tag.isPrefixOf (s.drop (i + 1)) then some (i + 1) else rfind_from s tag i

/-- Python `s.rfind(tag)`: the largest index at which `tag` occurs in `s`,
`none` standing for Python's `-1`. -/
def pyRfind (s tag : List Char) : Option Nat := rfind_from s tag s.length

def XML_DECLARATION : List Char := "<?xml version=\"1.0\" encoding=\"utf-8\"?>".toList

/-- `EventToDeliver.create_event_for_topic(topic, format, header_footer,
entry_payloads, now)` (lines 800-839).  The two `assert` statements (unknown
format, missing closing tag) abort with an exception; both are `none` here. -/
def EventToDeliver.create_event_for_topic (h : String → String)
    (topic format : String) (header_footer : List Char)
    (entry_payloads : List (List Char)) (now : Int) : Option EventToDeliver :=
  let close_tag : Option (List Char) :=
    if format == ATOM then some "</feed>".toList
    else if format == RSS then some "</channel>".toList
    else none
  match close_tag with
  | none => none
  | some tag =>
      match pyRfind header_footer tag with
      | none => none
      | some close_index =>
          let payload_list := [XML_DECLARATION, header_footer.take close_index] ++
            entry_payloads ++ [header_footer.drop close_index]
          some { topic := topic, topic_hash := h topic,
                 payload := List.intercalate ['\n'] payload_list,
                 last_callback := "", failed_callbacks := [],
                 delivery_mode := DeliveryMode.normal, retry_attempts := 0,
                 last_modified := now, totally_failed := false }

/-- The fields of a failed Subscription entity that `update` reads: its key
(`e.key()`) and the `callback_hash` used as the sort key. -/
structure FailedSub where
  key_name : String
  callback_hash : String
deriving DecidableEq, Repr

/-- `EventToDeliver.update(more_callbacks, more_failed_callbacks, now,
max_failures, retry_period)` (lines 903-956).  `sorted(..., key=...)` is a
sort by `callback_hash`.  In the deleted branch the method returns before
reaching `put()`; every other path falls through to `put()`. -/
def EventToDeliver.update (e : EventToDeliver) (more_callbacks : Bool)
    (more_failed_callbacks : List FailedSub) (now : Int) (max_failures : Nat)
    (retry_period : Int) : EntityOutcome EventToDeliver :=
  let sorted_failed := more_failed_callbacks.insertionSort
      (fun a b => a.callback_hash ≤ b.callback_hash)
  let e1 := { e with
    last_modified := now,
    failed_callbacks := e.failed_callbacks ++ sorted_failed.map FailedSub.key_name }
  if !more_callbacks && e1.failed_callbacks.isEmpty then
    EntityOutcome.deleted
  else if !more_callbacks then
    let e2 := { e1 with last_callback := "" }
    let retry_delay := retry_period * 2 ^ e2.retry_attempts
    let e3 := { e2 with last_modified := e2.last_modified + retry_delay }
    let e4 := { e3 with retry_attempts := e3.retry_attempts + 1 }
    let e5 := if e4.retry_attempts > max_failures then
                { e4 with totally_failed := true }
              else e4
    let e6 := if e5.delivery_mode == DeliveryMode.normal then
                { e5 with delivery_mode := DeliveryMode.retry }
              else e5
    EntityOutcome.stored e6
  else
    EntityOutcome.stored e1

/-- Python `list.index` (first occurrence), `none` for `ValueError`. -/
def pyIndex (k : String) : List String → Option Nat
  | [] => none
  | a :: rest => if a == k then some 0 else (pyIndex k rest).map (· + 1)

structure RetryStep where
  more_subscribers : Bool
  subscription_list : List Subscription
  event : EventToDeliver
deriving DecidableEq, Repr

/-- Lines 891-895: `if subscription_list and not self.last_callback:
self.last_callback = subscription_list[0].callback`. -/
def maybe_set_sentinel (e : EventToDeliver) (subscription_list : List Subscription) :
    EventToDeliver :=
  if !subscription_list.isEmpty && (e.last_callback == "") then
    match subscription_list with
    | s :: _ => { e with last_callback := s.callback }
    | [] => e
  else e

/-- The `delivery_mode == RETRY` branch of
`EventToDeliver.get_next_subscribers(chunk_size)` (lines 869-899).  `store`
is `db.get` over Subscription key names, absent entities being `None` and
discarded.  The wrap sentinel is looked up in the chunk before trimming, and
`failed_callbacks` advances by the length of the possibly-trimmed chunk. -/
def EventToDeliver.get_next_subscribers_retry (h : String → String)
    (store : String → Option Subscription) (e : EventToDeliver)
    (chunk_size : Nat) : RetryStep :=
  let next_chunk0 := e.failed_callbacks.take chunk_size
  let more0 := decide (e.failed_callbacks.length > next_chunk0.length)
  let final_key := Subscription.create_key_name h e.last_callback e.topic
  let step :=
    if e.last_callback == "" then (more0, next_chunk0)
    else
      match pyIndex final_key next_chunk0 with
      | some final_index => (false, next_chunk0.take final_index)
      | none => (more0, next_chunk0)
  let next_chunk := step.2
  let subscription_list := next_chunk.filterMap store
  let e1 := maybe_set_sentinel e subscription_list
  { more_subscribers := step.1,
    subscription_list := subscription_list,
    event := { e1 with failed_callbacks := e1.failed_callbacks.drop next_chunk.length } }

/-! ### PollingMarker (hub/main.py lines 1028-1069) -/

structure PollingMarker where
  next_start : Int
  current_key : Option String
deriving DecidableEq, Repr

/-- Python truthiness of an optional text property: `None` and the empty
string are falsy. -/
def pyTruthyOptStr : Option String → Bool
  | none => false
  | some s => !(s == "")

/-- `PollingMarker.should_progress(period, now)` (lines 1050-1069), returning
the result together with the possibly-modified marker.  The fresh-cycle
branch only reassigns `next_start`; it does not touch `current_key`. -/
def PollingMarker.should_progress (m : PollingMarker) (period : Int) (now : Int) :
    Bool × PollingMarker :=
  if m.next_start < now then
    (true, { m with next_start := now + period })
  else if pyTruthyOptStr m.current_key then
    (true, m)
  else
    (false, m)

/-- A concrete marker mid-cycle: `next_start` in the past, cursor set. -/
def demoMarker : PollingMarker :=
  { next_start := 0, current_key := some "agtrZXktMDAx" }

/-- A concrete event used for witnesses. -/
def demoEvent : EventToDeliver :=
  { topic := "http://pub.example.com/feed", topic_hash := "th",
    payload := [], last_callback := "", failed_callbacks := [],
    delivery_mode := DeliveryMode.normal, retry_attempts := 0,
    last_modified := 0, totally_failed := false }

/-- A retry-mode event mid-pass: the sentinel key for its `last_callback`
sits at the head of `failed_callbacks`. -/
def demoRetryEventA : EventToDeliver :=
  { demoEvent with
    delivery_mode := DeliveryMode.retry,
    last_callback := "http://cb.example.com/endpoint",
    failed_callbacks :=
      ["hash_http://cb.example.com/endpoint\nhttp://pub.example.com/feed", "k2"] }

/-- A retry-mode event at the start of a pass: no sentinel recorded yet. -/
def demoRetryEventB : EventToDeliver :=
  { demoEvent with
    delivery_mode := DeliveryMode.retry,
    failed_callbacks := ["ka", "kb"] }

/-- A datastore in which only the Subscription key "ka" dereferences. -/
def demoStoreB : String → Option Subscription :=
  fun k => if k == "ka" then some demoSub else none

/-! ### Lemmas about the dict and dispatcher -/

theorem pyDictInsert_map_mem {α β : Type} (f : String × α → β) (l : List (String × α))
    (kv : String × α) (x : β) (hx : x ∈ (pyDictInsert l kv).map f) :
    x ∈ l.map f ∨ x = f kv := by
  unfold pyDictInsert at hx
  split at hx
  · simp only [List.map_map, List.mem_map] at hx
    obtain ⟨p, hp, hfp⟩ := hx
    by_cases hpk : p.1 == kv.1
    · right
      simp only [Function.comp_apply, hpk, if_true] at hfp
      exact hfp.symm
    · left
      simp only [Function.comp_apply, hpk, if_false] at hfp
      exact hfp ▸ List.mem_map_of_mem f hp
  · simp only [List.map_append, List.map_cons, List.map_nil,
      List.mem_append, List.mem_singleton] at hx
    exact hx

theorem pyDict_foldl_map_mem {α β : Type} (f : String × α → β) :
    ∀ (l : List (String × α)) (acc : List (String × α)) (x : β),
      x ∈ (List.foldl pyDictInsert acc l).map f → x ∈ acc.map f ∨ x ∈ l.map f := by
  intro l
  induction l with
  | nil => intro acc x hx; exact Or.inl hx
  | cons kv t ih =>
      intro acc x hx
      rcases ih (pyDictInsert acc kv) x hx with hmem | hmem
      · rcases pyDictInsert_map_mem f acc kv x hmem with hmem2 | hmem2
        · exact Or.inl hmem2
        · exact Or.inr (by simp [hmem2])
      · exact Or.inr (by simp [hmem])

theorem pyDict_map_mem {α β : Type} (f : String × α → β) (l : List (String × α)) (x : β)
    (hx : x ∈ (pyDict l).map f) : x ∈ l.map f := by
  rcases pyDict_foldl_map_mem f l [] x hx with h | h
  · simp at h
  · exact h

/-- Any value produced by looking keys up in the dict built over `possible`
is an element of `possible`. -/
theorem filterMap_pyDict_mem {α : Type} (key : α → String) (possible : List α)
    (keys : List String) (g : α)
    (hg : g ∈ keys.filterMap (fun k =>
      ((pyDict (possible.map (fun w => (key w, w)))).find? (fun p => p.1 == k)).map
        Prod.snd)) : g ∈ possible := by
  rw [List.mem_filterMap] at hg
  obtain ⟨k, _, hfind⟩ := hg
  rw [Option.map_eq_some'] at hfind
  obtain ⟨p, hp, hpg⟩ := hfind
  have hpmem := List.mem_of_find?_eq_some hp
  have hval : p.2 ∈ (possible.map (fun w => (key w, w))).map Prod.snd :=
    pyDict_map_mem Prod.snd _ _ (List.mem_map_of_mem Prod.snd hpmem)
  rw [List.map_map] at hval
  simp only [Function.comp_def, List.map_id'] at hval
  exact hpg ▸ hval

/-- The locking phase only ever returns entities drawn from `possible_work`. -/
theorem query_and_own_lock_single_mem {α : Type} (key : α → String)
    (possible_work : List α) (cache : Cache) (work_count : Nat) (g : α)
    (hres : (query_and_own_lock key possible_work cache work_count).result =
      QOResult.single (some g)) : g ∈ possible_work := by
  unfold query_and_own_lock at hres
  by_cases hw : ((work_count == 1) = true)
  · simp only [hw, if_true, QOResult.single.injEq] at hres
    have hmem : g ∈ _ := List.mem_of_mem_head? (by exact hres)
    exact filterMap_pyDict_mem key _ _ g hmem
  · simp [hw] at hres

/-- Every entity returned by the dispatcher came from the query result, as long
as `sample` draws from its input. -/
theorem query_and_own_single_mem {α : Type} (key : α → String)
    (sample : List α → Nat → List α) (work_to_do : List α) (cache : Cache)
    (work_count lock_ratio : Nat)
    (hs : ∀ (l : List α) (n : Nat) (w : α), w ∈ sample l n → w ∈ l)
    (g : α)
    (hres : (query_and_own key sample work_to_do cache work_count lock_ratio).result =
      QOResult.single (some g)) : g ∈ work_to_do := by
  unfold query_and_own at hres
  by_cases he : work_to_do.isEmpty
  · rw [if_pos he] at hres
    by_cases hw : ((work_count == 1) = true) <;> simp [hw] at hres
  · rw [if_neg he] at hres
    exact hs _ _ _ (query_and_own_lock_single_mem key _ cache work_count g hres)

/-- When every key the locking phase tries is already held in the memcache,
nothing is locked, nothing is returned and the memcache is unchanged. -/
theorem query_and_own_lock_all_locked {α : Type} (key : α → String)
    (possible_work : List α) (cache : Cache) (work_count : Nat)
    (hcol : ∀ w ∈ possible_work, cache.contains (key w) = true) :
    query_and_own_lock key possible_work cache work_count =
      { result := if work_count == 1 then QOResult.single none else QOResult.multiple [],
        cache := cache,
        ops := [CacheOp.addMulti ((pyDict (possible_work.map (fun w =>
          (key w, w)))).map Prod.fst)] } := by
  have hall : ∀ k ∈ (pyDict (possible_work.map (fun w => (key w, w)))).map Prod.fst,
      cache.contains k = true := by
    intro k hk
    have hmem := pyDict_map_mem Prod.fst _ _ hk
    rw [List.map_map] at hmem
    simp only [Function.comp_def] at hmem
    obtain ⟨w, hw, hkw⟩ := List.mem_map.mp hmem
    exact hkw ▸ hcol w hw
  simp only [query_and_own_lock]
  set tks := (pyDict (possible_work.map (fun w => (key w, w)))).map Prod.fst with htks
  have h1 : tks.filter (fun k => cache.contains k) = tks :=
    List.filter_eq_self.mpr hall
  have h2 : tks.filter (fun k => !cache.contains k) = [] := by
    rw [List.filter_eq_nil_iff]
    intro k hk
    have hc := hall k hk
    simp at hc ⊢
    exact hc
  have hadd : cacheAddMulti cache tks = (tks, cache) := by
    unfold cacheAddMulti
    rw [h1, h2, List.append_nil]
  rw [hadd]
  have hlocked : tks.filter (fun k => !((tks, cache).1.contains k)) = [] := by
    rw [List.filter_eq_nil_iff]
    intro k hk
    simpa using hk
  rw [hlocked]
  simp

/-- Claim C2: an invocation of `query_and_own` in which every attempted
memcache lock collides returns no work (`None` for `work_count == 1`, the
empty list for `work_count > 1`) and mutates no state; the function never
writes the datastore at all, and here even the memcache comes back
unchanged. -/
theorem claim_C2_collision_returns_empty {α : Type} (key : α → String)
    (sample : List α → Nat → List α) (work_to_do : List α) (cache : Cache)
    (work_count lock_ratio : Nat)
    (hcol : ∀ w ∈ sample work_to_do (min work_to_do.length (lock_ratio * work_count)),
      cache.contains (key w) = true) :
    (work_count = 1 →
      (query_and_own key sample work_to_do cache work_count lock_ratio).result =
        QOResult.single none) ∧
    (work_count > 1 →
      (query_and_own key sample work_to_do cache work_count lock_ratio).result =
        QOResult.multiple []) ∧
    (query_and_own key sample work_to_do cache work_count lock_ratio).cache = cache := by
  unfold query_and_own
  by_cases he : work_to_do.isEmpty
  · rw [if_pos he]
    refine ⟨fun h1 => ?_, fun h2 => ?_, rfl⟩
    · simp [h1]
    · have : (work_count == 1) = false := by
        simp [Nat.ne_of_gt h2]
      simp [this]
  · rw [if_neg he]
    rw [query_and_own_lock_all_locked key _ cache work_count hcol]
    refine ⟨fun h1 => ?_, fun h2 => ?_, rfl⟩
    · simp [h1]
    · have : (work_count == 1) = false := by
        simp [Nat.ne_of_gt h2]
      simp [this]

/-- Witness for claim C2 at a concrete input: one candidate whose lock is
already held. -/
theorem claim_C2_witness :
    (∀ w ∈ (fun (l : List String) (n : Nat) => l.take n) ["k1"]
        (min (["k1"] : List String).length (4 * 1)),
      (["k1"] : Cache).contains ((fun (s : String) => s) w) = true) ∧
    (query_and_own (fun (s : String) => s) (fun l n => l.take n)
      ["k1"] ["k1"] 1 4).result = QOResult.single none ∧
    (query_and_own (fun (s : String) => s) (fun l n => l.take n)
      ["k1"] ["k1"] 1 4).cache = ["k1"] := by
  refine ⟨by decide, ?_, ?_⟩
  · exact (claim_C2_collision_returns_empty (fun (s : String) => s) (fun l n => l.take n)
      ["k1"] ["k1"] 1 4 (by decide)).1 rfl
  · exact (claim_C2_collision_returns_empty (fun (s : String) => s) (fun l n => l.take n)
      ["k1"] ["k1"] 1 4 (by decide)).2.2

/-- Shape of the locking phase result. -/
theorem query_and_own_lock_shape {α : Type} (key : α → String)
    (possible_work : List α) (cache : Cache) (work_count : Nat) :
    (work_count = 1 → ∃ o, (query_and_own_lock key possible_work cache work_count).result =
      QOResult.single o) ∧
    (work_count ≠ 1 → ∃ l, (query_and_own_lock key possible_work cache work_count).result =
      QOResult.multiple l ∧ l.length ≤ work_count) := by
  unfold query_and_own_lock
  constructor
  · intro h1
    subst h1
    exact ⟨_, rfl⟩
  · intro h2
    have hw : (work_count == 1) = false := by simp [h2]
    simp only [hw, Bool.false_eq_true, if_false]
    refine ⟨_, rfl, ?_⟩
    exact le_trans (List.length_filterMap_le _ _)
      (le_trans (List.length_take_le _ _) le_rfl)

/-- Claim C10: the result shape of `query_and_own` follows `work_count`
(a single optional entity for `work_count == 1`, a list of at most
`work_count` entities otherwise), and when the priority query returns no
candidates the function returns immediately — empty result, no memcache
operation attempted, memcache unchanged. -/
theorem claim_C10_result_shape {α : Type} (key : α → String)
    (sample : List α → Nat → List α) (work_to_do : List α) (cache : Cache)
    (work_count lock_ratio : Nat) :
    (work_count = 1 → ∃ o,
      (query_and_own key sample work_to_do cache work_count lock_ratio).result =
        QOResult.single o) ∧
    (work_count > 1 → ∃ l,
      (query_and_own key sample work_to_do cache work_count lock_ratio).result =
        QOResult.multiple l ∧ l.length ≤ work_count) ∧
    (work_to_do = [] →
      (query_and_own key sample work_to_do cache work_count lock_ratio).ops = [] ∧
      (query_and_own key sample work_to_do cache work_count lock_ratio).cache = cache ∧
      ((query_and_own key sample work_to_do cache work_count lock_ratio).result =
          QOResult.single none ∨
        (query_and_own key sample work_to_do cache work_count lock_ratio).result =
          QOResult.multiple [])) := by
  unfold query_and_own
  by_cases he : work_to_do.isEmpty
  · rw [if_pos he]
    refine ⟨fun h1 => ?_, fun h2 => ?_, fun _ => ?_⟩
    · exact ⟨none, by simp [h1]⟩
    · have hw : (work_count == 1) = false := by simp [Nat.ne_of_gt h2]
      exact ⟨[], by simp [hw], by simp⟩
    · refine ⟨rfl, rfl, ?_⟩
      by_cases hw : ((work_count == 1) = true)
      · exact Or.inl (by simp [hw])
      · exact Or.inr (by simp [hw])
  · rw [if_neg he]
    refine ⟨fun h1 => ?_, fun h2 => ?_, fun hemp => ?_⟩
    · exact (query_and_own_lock_shape key _ cache work_count).1 h1
    · exact (query_and_own_lock_shape key _ cache work_count).2 (Nat.ne_of_gt h2)
    · exact absurd (hemp ▸ rfl) he

/-- Witness for claim C10 at concrete inputs: `work_count` of 1 and 2 on a
non-empty candidate list, and an empty candidate list. -/
theorem claim_C10_witness :
    (∃ o, (query_and_own (fun (s : String) => s) (fun l n => l.take n)
      ["a"] [] 1 4).result = QOResult.single o) ∧
    (∃ l, (query_and_own (fun (s : String) => s) (fun l n => l.take n)
      ["a"] [] 2 4).result = QOResult.multiple l ∧ l.length ≤ 2) ∧
    ((query_and_own (fun (s : String) => s) (fun l n => l.take n)
      ([] : List String) [] 1 4).ops = [] ∧
     (query_and_own (fun (s : String) => s) (fun l n => l.take n)
      ([] : List String) [] 1 4).cache = []) := by
  refine ⟨?_, ?_, ?_⟩
  · exact (claim_C10_result_shape (fun (s : String) => s) (fun l n => l.take n)
      ["a"] [] 1 4).1 rfl
  · exact (claim_C10_result_shape (fun (s : String) => s) (fun l n => l.take n)
      ["a"] [] 2 4).2.1 (by decide)
  · have h := (claim_C10_result_shape (fun (s : String) => s) (fun l n => l.take n)
      ([] : List String) [] 1 4).2.2 rfl
    exact ⟨h.1, h.2.1⟩

/-- Claim C7: for a (callback, topic) with an existing `Subscription` entity
(in any state), `request_insert` leaves the entity completely unchanged — no
field, including `subscription_state` and `verify_token`, is modified — and
returns `False`; only when no entity exists does it create one in the
pending-verify state with the given `verify_token` and return `True`. -/
theorem claim_C7_request_insert_frame (h : String → String) (sub : Subscription)
    (callback topic verify_token : String) (now : Int) :
    Subscription.request_insert h (some sub) callback topic verify_token now =
      (false, some sub) ∧
    Subscription.request_insert h none callback topic verify_token now =
      (true, some {
        callback := callback, callback_hash := h callback,
        topic := topic, topic_hash := h topic,
        created_time := now, last_modified := now,
        expiration_time := now + EXPIRATION_DELTA,
        eta := now, confirm_failures := 0,
        verify_token := some verify_token,
        subscription_state := SubState.not_verified }) :=
  ⟨rfl, rfl⟩

/-- Claim C4 counterexample: on a subscription with `confirm_failures = 0`
and the default constants at `now = 0`, the code stores `eta = 300 = 300 * 2^0`
(exponent taken before the increment), while the claim — whose exponent is the
incremented counter value, here `1` — would demand `eta = 600`. -/
theorem claim_C4_counterexample :
    Subscription.confirm_failed demoSub MAX_SUBSCRIPTION_CONFIRM_FAILURES
        SUBSCRIPTION_RETRY_PERIOD 0 =
      EntityOutcome.stored { demoSub with
        eta := 300, confirm_failures := 1, last_modified := 0 } ∧
    ¬ (Subscription.confirm_failed demoSub MAX_SUBSCRIPTION_CONFIRM_FAILURES
        SUBSCRIPTION_RETRY_PERIOD 0 =
      EntityOutcome.stored { demoSub with
        eta := 0 + SUBSCRIPTION_RETRY_PERIOD * 2 ^ (demoSub.confirm_failures + 1),
        confirm_failures := demoSub.confirm_failures + 1,
        last_modified := 0 }) := by
  constructor
  · decide
  · decide

/-- Claim C4 (amended): when `confirm_failures` has reached `max_failures`
(default `MAX_SUBSCRIPTION_CONFIRM_FAILURES = 10`) the entity is deleted;
otherwise `confirm_failures` is incremented by 1 and `eta` is set to
`now + retry_period * 2^confirm_failures`, where the exponent is the counter
value BEFORE the increment. -/
theorem claim_C4_confirm_failed (sub : Subscription) (max_failures : Nat)
    (retry_period now : Int) :
    (sub.confirm_failures ≥ max_failures →
      Subscription.confirm_failed sub max_failures retry_period now =
        EntityOutcome.deleted) ∧
    (sub.confirm_failures < max_failures →
      Subscription.confirm_failed sub max_failures retry_period now =
        EntityOutcome.stored { sub with
          eta := now + retry_period * 2 ^ sub.confirm_failures,
          confirm_failures := sub.confirm_failures + 1,
          last_modified := now }) := by
  constructor
  · intro hge
    unfold Subscription.confirm_failed
    rw [if_pos hge]
  · intro hlt
    unfold Subscription.confirm_failed
    rw [if_neg (Nat.not_le.mpr hlt)]

/-- Witness for the amended claim C4: the deletion branch at a counter of 10
and the backoff branch at a counter of 0, both at `now = 5`. -/
theorem claim_C4_witness :
    ({ demoSub with confirm_failures := 10 } : Subscription).confirm_failures ≥
        MAX_SUBSCRIPTION_CONFIRM_FAILURES ∧
    Subscription.confirm_failed { demoSub with confirm_failures := 10 }
        MAX_SUBSCRIPTION_CONFIRM_FAILURES SUBSCRIPTION_RETRY_PERIOD 5 =
      EntityOutcome.deleted ∧
    demoSub.confirm_failures < MAX_SUBSCRIPTION_CONFIRM_FAILURES ∧
    Subscription.confirm_failed demoSub MAX_SUBSCRIPTION_CONFIRM_FAILURES
        SUBSCRIPTION_RETRY_PERIOD 5 =
      EntityOutcome.stored { demoSub with
        eta := 5 + SUBSCRIPTION_RETRY_PERIOD * 2 ^ demoSub.confirm_failures,
        confirm_failures := demoSub.confirm_failures + 1,
        last_modified := 5 } :=
  ⟨by decide,
   (claim_C4_confirm_failed { demoSub with confirm_failures := 10 }
     MAX_SUBSCRIPTION_CONFIRM_FAILURES SUBSCRIPTION_RETRY_PERIOD 5).1 (by decide),
   by decide,
   (claim_C4_confirm_failed demoSub MAX_SUBSCRIPTION_CONFIRM_FAILURES
     SUBSCRIPTION_RETRY_PERIOD 5).2 (by decide)⟩

/-- Under the failure cap, each `fetch_failed` adds one failure and leaves
`totally_failed` alone. -/
theorem fail_sequence_below_cap (max_failures : Nat) (retry_period : Int)
    (nows : List Int) :
    ∀ f : FeedToFetch, f.fetching_failures + nows.length ≤ max_failures →
      (FeedToFetch.fail_sequence max_failures retry_period f nows).fetching_failures =
        f.fetching_failures + nows.length ∧
      (FeedToFetch.fail_sequence max_failures retry_period f nows).totally_failed =
        f.totally_failed := by
  induction nows with
  | nil => intro f _; simp [FeedToFetch.fail_sequence]
  | cons now rest ih =>
      intro f hle
      simp only [List.length_cons] at hle
      have hlt : f.fetching_failures < max_failures := by omega
      simp only [FeedToFetch.fail_sequence]
      have hstep : f.fetch_failed max_failures retry_period now =
          { f with eta := now + retry_period * 2 ^ f.fetching_failures,
                   fetching_failures := f.fetching_failures + 1 } := by
        unfold FeedToFetch.fetch_failed
        rw [if_neg (Nat.not_le.mpr hlt)]
      rw [hstep]
      obtain ⟨hc, ht⟩ := ih { f with
          eta := now + retry_period * 2 ^ f.fetching_failures,
          fetching_failures := f.fetching_failures + 1 } (by simp; omega)
      refine ⟨?_, ht⟩
      rw [hc]
      simp
      omega

theorem fail_sequence_append (max_failures : Nat) (retry_period : Int)
    (l1 l2 : List Int) :
    ∀ f : FeedToFetch, FeedToFetch.fail_sequence max_failures retry_period f (l1 ++ l2) =
      FeedToFetch.fail_sequence max_failures retry_period
        (FeedToFetch.fail_sequence max_failures retry_period f l1) l2 := by
  induction l1 with
  | nil => intro f; simp [FeedToFetch.fail_sequence]
  | cons now rest ih =>
      intro f
      simp only [List.cons_append, FeedToFetch.fail_sequence]
      exact ih _

/-- Claim C5: `fetch_failed` below the cap increments `fetching_failures` and
pushes `eta` out by `retry_period * 2^fetching_failures` computed before the
increment; once the counter has reached `MAX_FEED_PULL_FAILURES = 9` it sets
`totally_failed` (the record persists — the put branch returns the updated
entity rather than deleting it); starting from zero, `totally_failed` is still
false after any 9 consecutive failures and first becomes true on the 10th;
and `get_work` never returns an entity with `totally_failed = true`. -/
theorem claim_C5_fetch_failure_cap
    (f f0 : FeedToFetch) (retry_period now : Int) (nows : List Int)
    (h : String → String) (sample : List FeedToFetch → Nat → List FeedToFetch)
    (store : List FeedToFetch) (cache : Cache) (g : FeedToFetch) :
    (f.fetching_failures < MAX_FEED_PULL_FAILURES →
      f.fetch_failed MAX_FEED_PULL_FAILURES retry_period now =
        { f with eta := now + retry_period * 2 ^ f.fetching_failures,
                 fetching_failures := f.fetching_failures + 1 }) ∧
    (f.fetching_failures ≥ MAX_FEED_PULL_FAILURES →
      f.fetch_failed MAX_FEED_PULL_FAILURES retry_period now =
        { f with totally_failed := true }) ∧
    (f0.fetching_failures = 0 → f0.totally_failed = false →
      nows.length ≤ 9 →
      (FeedToFetch.fail_sequence MAX_FEED_PULL_FAILURES retry_period f0
        nows).totally_failed = false) ∧
    (f0.fetching_failures = 0 → nows.length = 10 →
      (FeedToFetch.fail_sequence MAX_FEED_PULL_FAILURES retry_period f0
        nows).totally_failed = true) ∧
    ((∀ (l : List FeedToFetch) (n : Nat) (w : FeedToFetch), w ∈ sample l n → w ∈ l) →
      (FeedToFetch.get_work h sample store cache now).result = QOResult.single (some g) →
      g.totally_failed = false) := by
  refine ⟨?_, ?_, ?_, ?_, ?_⟩
  · intro hlt
    unfold FeedToFetch.fetch_failed
    rw [if_neg (Nat.not_le.mpr hlt)]
  · intro hge
    unfold FeedToFetch.fetch_failed
    rw [if_pos hge]
  · intro h0 ht hlen
    have := fail_sequence_below_cap MAX_FEED_PULL_FAILURES retry_period nows f0
      (by rw [h0]; simpa [MAX_FEED_PULL_FAILURES] using hlen)
    rw [this.2, ht]
  · intro h0 hlen
    have hne : nows ≠ [] := by
      intro hnil
      rw [hnil] at hlen
      simp at hlen
    have hsplit := List.dropLast_append_getLast hne
    rw [← hsplit, fail_sequence_append]
    have hlen9 : nows.dropLast.length = 9 := by
      rw [List.length_dropLast, hlen]
    obtain ⟨hc, _⟩ := fail_sequence_below_cap MAX_FEED_PULL_FAILURES retry_period
      nows.dropLast f0 (by rw [h0, hlen9]; simp [MAX_FEED_PULL_FAILURES])
    simp only [FeedToFetch.fail_sequence]
    unfold FeedToFetch.fetch_failed
    rw [if_pos (by rw [hc, h0, hlen9]; simp [MAX_FEED_PULL_FAILURES])]
  · intro hs hres
    have hmem := query_and_own_single_mem _ sample _ cache 1 4 hs g hres
    unfold FeedToFetch.work_query at hmem
    have hmem2 := List.take_subset _ _ hmem
    rw [List.mem_insertionSort] at hmem2
    rw [List.mem_filter] at hmem2
    have hp := hmem2.2
    simp at hp
    exact hp.2

/-- Witness for claim C5: each conjunct applied at a concrete input — a fresh
item, an item with 9 failures, sequences of 3 and of 10 failures, and a
`get_work` call over a one-item store that returns that item. -/
theorem claim_C5_witness :
    demoFeed.fetching_failures < MAX_FEED_PULL_FAILURES ∧
    demoFeed.fetch_failed MAX_FEED_PULL_FAILURES FEED_PULL_RETRY_PERIOD 7 =
      { demoFeed with eta := 7 + FEED_PULL_RETRY_PERIOD * 2 ^ demoFeed.fetching_failures,
                      fetching_failures := demoFeed.fetching_failures + 1 } ∧
    demoFeed9.fetching_failures ≥ MAX_FEED_PULL_FAILURES ∧
    demoFeed9.fetch_failed MAX_FEED_PULL_FAILURES FEED_PULL_RETRY_PERIOD 7 =
      { demoFeed9 with totally_failed := true } ∧
    (FeedToFetch.fail_sequence MAX_FEED_PULL_FAILURES FEED_PULL_RETRY_PERIOD demoFeed
      [1, 2, 3]).totally_failed = false ∧
    (FeedToFetch.fail_sequence MAX_FEED_PULL_FAILURES FEED_PULL_RETRY_PERIOD demoFeed
      [0, 0, 0, 0, 0, 0, 0, 0, 0, 0]).totally_failed = true ∧
    (FeedToFetch.get_work (fun s => s) (fun l n => l.take n) [demoFeed] [] 5).result =
      QOResult.single (some demoFeed) ∧
    demoFeed.totally_failed = false := by
  refine ⟨by decide, ?_, by decide, ?_, ?_, ?_, by decide, ?_⟩
  · exact (claim_C5_fetch_failure_cap demoFeed demoFeed FEED_PULL_RETRY_PERIOD 7 []
      (fun s => s) (fun l n => l.take n) [] [] demoFeed).1 (by decide)
  · exact (claim_C5_fetch_failure_cap demoFeed9 demoFeed
      FEED_PULL_RETRY_PERIOD 7 [] (fun s => s) (fun l n => l.take n) [] []
      demoFeed).2.1 (by decide)
  · exact (claim_C5_fetch_failure_cap demoFeed demoFeed FEED_PULL_RETRY_PERIOD 0 [1, 2, 3]
      (fun s => s) (fun l n => l.take n) [] [] demoFeed).2.2.1 (by decide) (by decide)
      (by decide)
  · exact (claim_C5_fetch_failure_cap demoFeed demoFeed FEED_PULL_RETRY_PERIOD 0
      [0, 0, 0, 0, 0, 0, 0, 0, 0, 0] (fun s => s) (fun l n => l.take n) [] []
      demoFeed).2.2.2.1 (by decide) (by decide)
  · exact (claim_C5_fetch_failure_cap demoFeed demoFeed FEED_PULL_RETRY_PERIOD 5 []
      (fun s => s) (fun l n => l.take n) [demoFeed] [] demoFeed).2.2.2.2
      (fun l n w hw => List.take_subset n l hw) (by decide)

/-- Claim C9 counterexample: on a marker whose `next_start` is in the past
and whose `current_key` is set, `should_progress` starts a new cycle but does
NOT clear `current_key` — the cursor keeps its old value, contradicting the
claim that the fresh-cycle branch clears it. -/
theorem claim_C9_counterexample :
    PollingMarker.should_progress demoMarker POLLING_BOOTSTRAP_PERIOD 1 =
      (true, { next_start := 1 + POLLING_BOOTSTRAP_PERIOD,
               current_key := some "agtrZXktMDAx" }) ∧
    ¬ (PollingMarker.should_progress demoMarker POLLING_BOOTSTRAP_PERIOD 1 =
      (true, { next_start := 1 + POLLING_BOOTSTRAP_PERIOD, current_key := none })) := by
  constructor
  · decide
  · decide

/-- Claim C9 (amended): if `next_start` is strictly before `now`,
`should_progress` sets `next_start = now + period`, reports progress, and
leaves `current_key` unchanged (the poll handler, not this method, clears the
cursor when the scan is exhausted); otherwise the marker is left unchanged and
progress is reported exactly when `current_key` is truthy (non-null and
non-empty). -/
theorem claim_C9_should_progress (m : PollingMarker) (period now : Int) :
    (m.next_start < now →
      PollingMarker.should_progress m period now =
        (true, { m with next_start := now + period })) ∧
    (¬ m.next_start < now →
      PollingMarker.should_progress m period now =
        (pyTruthyOptStr m.current_key, m)) := by
  constructor
  · intro hlt
    unfold PollingMarker.should_progress
    rw [if_pos hlt]
  · intro hge
    unfold PollingMarker.should_progress
    rw [if_neg hge]
    by_cases ht : pyTruthyOptStr m.current_key = true
    · rw [if_pos ht, ht]
    · rw [if_neg ht]
      rw [Bool.not_eq_true] at ht
      rw [ht]

/-- Witness for the amended claim C9: both branches at concrete markers. -/
theorem claim_C9_witness :
    demoMarker.next_start < 1 ∧
    PollingMarker.should_progress demoMarker POLLING_BOOTSTRAP_PERIOD 1 =
      (true, { demoMarker with next_start := 1 + POLLING_BOOTSTRAP_PERIOD }) ∧
    ¬ ({ demoMarker with next_start := 99 } : PollingMarker).next_start < 1 ∧
    PollingMarker.should_progress { demoMarker with next_start := 99 }
        POLLING_BOOTSTRAP_PERIOD 1 =
      (pyTruthyOptStr ({ demoMarker with next_start := 99 } : PollingMarker).current_key,
       { demoMarker with next_start := 99 }) :=
  ⟨by decide,
   (claim_C9_should_progress demoMarker POLLING_BOOTSTRAP_PERIOD 1).1 (by decide),
   by decide,
   (claim_C9_should_progress { demoMarker with next_start := 99 }
     POLLING_BOOTSTRAP_PERIOD 1).2 (by decide)⟩

/-- A sort result is empty exactly when its input is. -/
theorem insertionSort_eq_nil_iff {α : Type} (r : α → α → Prop) [DecidableRel r]
    (l : List α) : l.insertionSort r = [] ↔ l = [] := by
  constructor
  · intro hnil
    have hlen := List.length_insertionSort r l
    rw [hnil] at hlen
    simp at hlen
    exact List.length_eq_zero.mp hlen.symm
  · intro hl
    rw [hl]
    rfl

/-- Claim C1: `EventToDeliver.update` deletes the event iff `more_callbacks`
is false and the failed-callbacks list — after appending the keys of
`more_failed_callbacks` — is empty; in every other case the entity is stored
via `put()`. -/
theorem claim_C1_update_delete_iff (e : EventToDeliver) (more_callbacks : Bool)
    (more_failed_callbacks : List FailedSub) (now : Int) (max_failures : Nat)
    (retry_period : Int) :
    (e.update more_callbacks more_failed_callbacks now max_failures retry_period =
        EntityOutcome.deleted ↔
      (more_callbacks = false ∧
        e.failed_callbacks ++ more_failed_callbacks.map FailedSub.key_name = [])) ∧
    (e.update more_callbacks more_failed_callbacks now max_failures retry_period =
        EntityOutcome.deleted ∨
      ∃ e2, e.update more_callbacks more_failed_callbacks now max_failures retry_period =
        EntityOutcome.stored e2) := by
  constructor
  · have hempty :
        (e.failed_callbacks ++ (more_failed_callbacks.insertionSort
          (fun a b => a.callback_hash ≤ b.callback_hash)).map FailedSub.key_name = []) ↔
        (e.failed_callbacks ++ more_failed_callbacks.map FailedSub.key_name = []) := by
      simp [List.append_eq_nil, List.map_eq_nil_iff, insertionSort_eq_nil_iff]
    unfold EventToDeliver.update
    cases more_callbacks with
    | true =>
        simp only [Bool.not_true, Bool.false_and, Bool.false_eq_true, if_false]
        constructor
        · intro hcontr
          exact absurd hcontr (by simp)
        · rintro ⟨hfalse, _⟩
          exact absurd hfalse (by simp)
    | false =>
        simp only [Bool.not_false, Bool.true_and]
        by_cases hf : (e.failed_callbacks ++ (more_failed_callbacks.insertionSort
            (fun a b => a.callback_hash ≤ b.callback_hash)).map
              FailedSub.key_name).isEmpty = true
        · rw [if_pos hf]
          rw [List.isEmpty_iff] at hf
          constructor
          · intro _
            exact ⟨trivial, hempty.mp hf⟩
          · intro _
            rfl
        · rw [if_neg hf]
          rw [List.isEmpty_iff] at hf
          constructor
          · intro hcontr
            exact absurd hcontr (by simp)
          · rintro ⟨_, hnil⟩
            exact absurd (hempty.mpr hnil) hf
  · cases hres : e.update more_callbacks more_failed_callbacks now max_failures
      retry_period with
    | deleted => exact Or.inl rfl
    | stored e2 => exact Or.inr ⟨e2, rfl⟩

/-- Witness for claim C1: the deletion direction of the iff at a concrete
finished event with no failures. -/
theorem claim_C1_witness :
    demoEvent.update false [] 3 MAX_DELIVERY_FAILURES DELIVERY_RETRY_PERIOD =
      EntityOutcome.deleted :=
  (claim_C1_update_delete_iff demoEvent false [] 3 MAX_DELIVERY_FAILURES
    DELIVERY_RETRY_PERIOD).1.mpr ⟨rfl, by decide⟩

/-- `rfind_from` returns `m` when a match sits at `m` and no match sits at
any position in `(m, n]`. -/
theorem rfind_from_eq_some (s tag : List Char) (m : Nat) :
    ∀ n, m ≤ n → tag.isPrefixOf (s.drop m) = true →
      (∀ i, m < i → i ≤ n → tag.isPrefixOf (s.drop i) = false) →
      rfind_from s tag n = some m := by
  intro n
  induction n with
  | zero =>
      intro hmn hpre _
      have hm0 : m = 0 := Nat.le_zero.mp hmn
      subst hm0
      rw [List.drop_zero] at hpre
      simp [rfind_from, hpre]
  | succ k ih =>
      intro hmn hpre hnone
      by_cases hmk : m = k + 1
      · subst hmk
        simp [rfind_from, hpre]
      · have hmk2 : m ≤ k := by omega
        have hik : tag.isPrefixOf (s.drop (k + 1)) = false :=
          hnone (k + 1) (by omega) (le_refl _)
        simp only [rfind_from, hik, Bool.false_eq_true, if_false]
        exact ih hmk2 hpre (fun i h1 h2 => hnone i h1 (by omega))

/-- Python `rfind` finds the LAST occurrence: on `pre ++ tag ++ post` with no
match after position `pre.length`, it returns `pre.length`. -/
theorem pyRfind_last_occurrence (pre tag post : List Char)
    (hafter : ∀ i, pre.length < i →
      tag.isPrefixOf ((pre ++ tag ++ post).drop i) = false) :
    pyRfind (pre ++ tag ++ post) tag = some pre.length := by
  unfold pyRfind
  apply rfind_from_eq_some
  · simp [List.length_append]
  · have hdrop : (pre ++ tag ++ post).drop pre.length = tag ++ post := by
      rw [List.append_assoc, List.drop_left]
    rw [hdrop]
    exact List.isPrefixOf_iff_prefix.mpr (List.prefix_append tag post)
  · intro i h1 _
    exact hafter i h1

/-- Beyond the end of `s` a non-empty `tag` never matches, so checking all
in-range positions is enough. -/
theorem isPrefixOf_drop_false_of_bounded (s tag : List Char) (m : Nat)
    (hne : tag ≠ [])
    (hbd : ∀ i, i ≤ s.length → m < i → tag.isPrefixOf (s.drop i) = false) :
    ∀ i, m < i → tag.isPrefixOf (s.drop i) = false := by
  intro i hi
  by_cases hlen : i ≤ s.length
  · exact hbd i hlen hi
  · have hdrop : s.drop i = [] := List.drop_eq_nil_of_le (by omega)
    rw [hdrop]
    cases tag with
    | nil => exact absurd rfl hne
    | cons a t => rfl

/-- Claim C8: for a format in atom/rss, a header/footer containing the
closing tag, and any entry payloads, the payload built by
`create_event_for_topic` is exactly: the XML declaration line, the
header/footer text up to (but excluding) the LAST occurrence of the closing
tag (`</feed>` for atom, `</channel>` for rss), every entry payload in the
given order, and the remainder of the header/footer starting at that tag,
all joined by newlines.  The split `pre ++ tag ++ post` with no later match
characterizes the last occurrence. -/
theorem claim_C8_payload_splice (h : String → String) (topic format : String)
    (pre post tag : List Char) (entry_payloads : List (List Char)) (now : Int)
    (hformat : (format = ATOM ∧ tag = "</feed>".toList) ∨
      (format = RSS ∧ tag = "</channel>".toList))
    (hafter : ∀ i, pre.length < i →
      tag.isPrefixOf ((pre ++ tag ++ post).drop i) = false) :
    ∃ e, EventToDeliver.create_event_for_topic h topic format (pre ++ tag ++ post)
        entry_payloads now = some e ∧
      e.payload = List.intercalate ['\n']
        ([XML_DECLARATION, pre] ++ entry_payloads ++ [tag ++ post]) := by
  have hrf := pyRfind_last_occurrence pre tag post hafter
  have htake : (pre ++ tag ++ post).take pre.length = pre := by
    rw [List.append_assoc, List.take_left]
  have hdrop : (pre ++ tag ++ post).drop pre.length = tag ++ post := by
    rw [List.append_assoc, List.drop_left]
  have hclose : (if format == ATOM then some ("</feed>".toList)
      else if format == RSS then some ("</channel>".toList)
      else (none : Option (List Char))) = some tag := by
    rcases hformat with ⟨hf, ht⟩ | ⟨hf, ht⟩ <;> subst hf <;> subst ht <;> decide
  refine ⟨{ topic := topic, topic_hash := h topic,
            payload := List.intercalate ['\n']
              ([XML_DECLARATION, (pre ++ tag ++ post).take pre.length] ++
                entry_payloads ++ [(pre ++ tag ++ post).drop pre.length]),
            last_callback := "", failed_callbacks := [],
            delivery_mode := DeliveryMode.normal, retry_attempts := 0,
            last_modified := now, totally_failed := false }, ?_, ?_⟩
  · simp only [EventToDeliver.create_event_for_topic, hclose, hrf]
  · simp only [htake, hdrop]

/-- Witness for claim C8: a concrete atom feed envelope with one entry. -/
theorem claim_C8_witness :
    ∃ e, EventToDeliver.create_event_for_topic (fun s => s)
        "http://pub.example.com/feed" ATOM
        ("<feed><title>T</title>".toList ++ "</feed>".toList ++ [])
        ["<entry>A</entry>".toList] 0 = some e ∧
      e.payload = List.intercalate ['\n']
        ([XML_DECLARATION, "<feed><title>T</title>".toList] ++
          ["<entry>A</entry>".toList] ++ ["</feed>".toList ++ []]) :=
  claim_C8_payload_splice (fun s => s) "http://pub.example.com/feed" ATOM
    "<feed><title>T</title>".toList [] "</feed>".toList
    ["<entry>A</entry>".toList] 0 (Or.inl ⟨rfl, rfl⟩)
    (isPrefixOf_drop_false_of_bounded _ _ _ (by decide) (by decide))

theorem pyIndex_eq_none_of_not_mem (k : String) :
    ∀ l : List String, k ∉ l → pyIndex k l = none := by
  intro l
  induction l with
  | nil => intro _; rfl
  | cons a rest ih =>
      intro hk
      simp only [List.mem_cons, not_or] at hk
      have ha : (a == k) = false := by
        rw [beq_eq_false_iff_ne]
        exact fun he => hk.1 he.symm
      simp [pyIndex, ha, ih hk.2]

/-- Python `list.index` returns the index of the FIRST occurrence. -/
theorem pyIndex_first_occurrence (k : String) :
    ∀ (pre post : List String), k ∉ pre →
      pyIndex k (pre ++ k :: post) = some pre.length := by
  intro pre
  induction pre with
  | nil =>
      intro post _
      simp [pyIndex]
  | cons a rest ih =>
      intro post hk
      simp only [List.mem_cons, not_or] at hk
      have ha : (a == k) = false := by
        rw [beq_eq_false_iff_ne]
        exact fun he => hk.1 he.symm
      simp [pyIndex, ha, ih post hk.2]

theorem maybe_set_sentinel_failed_callbacks (e : EventToDeliver)
    (sl : List Subscription) :
    (maybe_set_sentinel e sl).failed_callbacks = e.failed_callbacks := by
  unfold maybe_set_sentinel
  split
  · cases sl <;> rfl
  · rfl

theorem maybe_set_sentinel_of_ne (e : EventToDeliver) (sl : List Subscription)
    (hne : (e.last_callback == "") = false) : maybe_set_sentinel e sl = e := by
  unfold maybe_set_sentinel
  rw [hne]
  simp

theorem maybe_set_sentinel_cons (e : EventToDeliver) (s : Subscription)
    (rest : List Subscription) (hlc : e.last_callback = "") :
    maybe_set_sentinel e (s :: rest) = { e with last_callback := s.callback } := by
  unfold maybe_set_sentinel
  rw [hlc]
  simp

/-- Claim C6: in retry mode with the default chunk size, the next chunk is
the first `EVENT_SUBSCRIBER_CHUNK_SIZE` keys of `failed_callbacks`.  When
`last_callback` is non-empty and the key derived from
`(last_callback, topic)` occurs in that chunk, the delivered chunk is
truncated just before that sentinel's first occurrence and
`more_subscribers` comes out false (the pre-trim computation of
`more_subscribers` against `failed_callbacks` is overwritten here); when the
sentinel does not apply, the chunk is delivered whole with
`more_subscribers` compared against the full `failed_callbacks`; and when
`last_callback` is empty and the dereferenced chunk is non-empty,
`last_callback` becomes the first callback of the chunk. -/
theorem claim_C6_retry_chunk (h : String → String)
    (store : String → Option Subscription) (e : EventToDeliver)
    (hmode : e.delivery_mode = DeliveryMode.retry) :
    (∀ pre post, e.last_callback ≠ "" →
      e.failed_callbacks.take EVENT_SUBSCRIBER_CHUNK_SIZE =
        pre ++ Subscription.create_key_name h e.last_callback e.topic :: post →
      Subscription.create_key_name h e.last_callback e.topic ∉ pre →
      (e.get_next_subscribers_retry h store
          EVENT_SUBSCRIBER_CHUNK_SIZE).more_subscribers = false ∧
      (e.get_next_subscribers_retry h store
          EVENT_SUBSCRIBER_CHUNK_SIZE).subscription_list = pre.filterMap store ∧
      (e.get_next_subscribers_retry h store
          EVENT_SUBSCRIBER_CHUNK_SIZE).event.failed_callbacks =
        e.failed_callbacks.drop pre.length) ∧
    ((e.last_callback = "" ∨
        Subscription.create_key_name h e.last_callback e.topic ∉
          e.failed_callbacks.take EVENT_SUBSCRIBER_CHUNK_SIZE) →
      (e.get_next_subscribers_retry h store
          EVENT_SUBSCRIBER_CHUNK_SIZE).subscription_list =
        (e.failed_callbacks.take EVENT_SUBSCRIBER_CHUNK_SIZE).filterMap store ∧
      (e.get_next_subscribers_retry h store
          EVENT_SUBSCRIBER_CHUNK_SIZE).more_subscribers =
        decide (e.failed_callbacks.length >
          (e.failed_callbacks.take EVENT_SUBSCRIBER_CHUNK_SIZE).length) ∧
      (e.get_next_subscribers_retry h store
          EVENT_SUBSCRIBER_CHUNK_SIZE).event.failed_callbacks =
        e.failed_callbacks.drop
          (e.failed_callbacks.take EVENT_SUBSCRIBER_CHUNK_SIZE).length) ∧
    (∀ s rest, e.last_callback = "" →
      (e.failed_callbacks.take EVENT_SUBSCRIBER_CHUNK_SIZE).filterMap store =
        s :: rest →
      (e.get_next_subscribers_retry h store
          EVENT_SUBSCRIBER_CHUNK_SIZE).event.last_callback = s.callback) := by
  refine ⟨?_, ?_, ?_⟩
  · intro pre post hne hchunk hnotin
    have hlc : (e.last_callback == "") = false := by
      rw [beq_eq_false_iff_ne]
      exact hne
    have hidx : pyIndex (Subscription.create_key_name h e.last_callback e.topic)
        (e.failed_callbacks.take EVENT_SUBSCRIBER_CHUNK_SIZE) = some pre.length := by
      rw [hchunk]
      exact pyIndex_first_occurrence _ pre post hnotin
    have htake : (e.failed_callbacks.take EVENT_SUBSCRIBER_CHUNK_SIZE).take pre.length
        = pre := by
      rw [hchunk]
      exact List.take_left pre _
    simp only [EventToDeliver.get_next_subscribers_retry, hlc, Bool.false_eq_true,
      if_false, hidx, htake, maybe_set_sentinel_of_ne e _ hlc]
    simp
  · intro hdis
    have hstep :
        (if (e.last_callback == "") = true then
          (decide (e.failed_callbacks.length >
            (e.failed_callbacks.take EVENT_SUBSCRIBER_CHUNK_SIZE).length),
           e.failed_callbacks.take EVENT_SUBSCRIBER_CHUNK_SIZE)
        else
          match pyIndex (Subscription.create_key_name h e.last_callback e.topic)
            (e.failed_callbacks.take EVENT_SUBSCRIBER_CHUNK_SIZE) with
          | some final_index => (false,
              (e.failed_callbacks.take EVENT_SUBSCRIBER_CHUNK_SIZE).take final_index)
          | none => (decide (e.failed_callbacks.length >
              (e.failed_callbacks.take EVENT_SUBSCRIBER_CHUNK_SIZE).length),
             e.failed_callbacks.take EVENT_SUBSCRIBER_CHUNK_SIZE)) =
        (decide (e.failed_callbacks.length >
          (e.failed_callbacks.take EVENT_SUBSCRIBER_CHUNK_SIZE).length),
         e.failed_callbacks.take EVENT_SUBSCRIBER_CHUNK_SIZE) := by
      rcases hdis with hlc | hnot
      · rw [if_pos (by simp [hlc])]
      · by_cases hlc : (e.last_callback == "") = true
        · rw [if_pos hlc]
        · rw [if_neg hlc, pyIndex_eq_none_of_not_mem _ _ hnot]
    simp only [EventToDeliver.get_next_subscribers_retry, hstep,
      maybe_set_sentinel_failed_callbacks]
    simp
  · intro s rest hlc hsl
    have hlc2 : (e.last_callback == "") = true := by simp [hlc]
    simp only [EventToDeliver.get_next_subscribers_retry, hlc2, if_true, hsl,
      maybe_set_sentinel_cons e s rest hlc]

/-- Witness for claim C6: the sentinel-truncation case on an event whose
sentinel key heads the failure list, the no-sentinel case, and the
sentinel-recording case on a fresh retry pass. -/
theorem claim_C6_witness :
    ((demoRetryEventA.get_next_subscribers_retry (fun s => s) (fun _ => none)
        EVENT_SUBSCRIBER_CHUNK_SIZE).more_subscribers = false ∧
     (demoRetryEventA.get_next_subscribers_retry (fun s => s) (fun _ => none)
        EVENT_SUBSCRIBER_CHUNK_SIZE).subscription_list =
       ([] : List String).filterMap (fun _ => none) ∧
     (demoRetryEventA.get_next_subscribers_retry (fun s => s) (fun _ => none)
        EVENT_SUBSCRIBER_CHUNK_SIZE).event.failed_callbacks =
       demoRetryEventA.failed_callbacks.drop ([] : List String).length) ∧
    ((demoRetryEventB.get_next_subscribers_retry (fun s => s) demoStoreB
        EVENT_SUBSCRIBER_CHUNK_SIZE).subscription_list =
       (demoRetryEventB.failed_callbacks.take
         EVENT_SUBSCRIBER_CHUNK_SIZE).filterMap demoStoreB ∧
     (demoRetryEventB.get_next_subscribers_retry (fun s => s) demoStoreB
        EVENT_SUBSCRIBER_CHUNK_SIZE).more_subscribers =
       decide (demoRetryEventB.failed_callbacks.length >
         (demoRetryEventB.failed_callbacks.take
           EVENT_SUBSCRIBER_CHUNK_SIZE).length) ∧
     (demoRetryEventB.get_next_subscribers_retry (fun s => s) demoStoreB
        EVENT_SUBSCRIBER_CHUNK_SIZE).event.failed_callbacks =
       demoRetryEventB.failed_callbacks.drop
         (demoRetryEventB.failed_callbacks.take
           EVENT_SUBSCRIBER_CHUNK_SIZE).length) ∧
    (demoRetryEventB.get_next_subscribers_retry (fun s => s) demoStoreB
        EVENT_SUBSCRIBER_CHUNK_SIZE).event.last_callback = demoSub.callback :=
  ⟨(claim_C6_retry_chunk (fun s => s) (fun _ => none) demoRetryEventA rfl).1
      [] ["k2"] (by decide) (by decide) (by decide),
   (claim_C6_retry_chunk (fun s => s) demoStoreB demoRetryEventB rfl).2.1
      (Or.inl rfl),
   (claim_C6_retry_chunk (fun s => s) demoStoreB demoRetryEventB rfl).2.2
      demoSub [] rfl (by decide)⟩

theorem entry_seen_eq_beq (dict : String → Option String) (eid x : String) :
    entry_seen dict eid x = (dict eid == some x) := by
  unfold entry_seen
  cases dict eid <;> rfl

/-- Looking an id up among the records fetched for a list of ids containing
it is the same as looking it up in the store. -/
theorem find?_get_entries (store : EntryStore) (eid : String) :
    ∀ ids : List String,
      (get_entries_for_topic store ids).find? (fun p => p.1 == eid) =
        if eid ∈ ids then store.find? (fun p => p.1 == eid) else none := by
  intro ids
  induction ids with
  | nil => simp [get_entries_for_topic]
  | cons i rest ih =>
      simp only [get_entries_for_topic] at ih ⊢
      cases hfi : store.find? (fun p => p.1 == i) with
      | none =>
          rw [@List.filterMap_cons_none String (String × String)
            (fun i => List.find? (fun p => p.1 == i) store) i rest hfi]
          by_cases hei : eid = i
          · subst hei
            rw [ih, if_pos (List.mem_cons_self _ _)]
            by_cases hin : eid ∈ rest
            · rw [if_pos hin]
            · rw [if_neg hin, hfi]
          · rw [ih]
            by_cases hin : eid ∈ rest
            · rw [if_pos hin, if_pos (List.mem_cons_of_mem i hin)]
            · rw [if_neg hin, if_neg (by simp [hei, hin])]
      | some p =>
          have hp1 : p.1 = i := by
            have hpred := List.find?_some hfi
            simpa using hpred
          rw [@List.filterMap_cons_some String (String × String)
            (fun i => List.find? (fun p => p.1 == i) store) i rest p hfi]
          by_cases hei : eid = i
          · subst hei
            rw [@List.find?_cons_of_pos _ (fun p => p.1 == eid) p
                (List.filterMap (fun i => List.find? (fun p => p.1 == i) store) rest)
                (by simp [hp1]),
              if_pos (List.mem_cons_self _ _), hfi]
          · have hneq : ¬((p.1 == eid) = true) := by
              simp only [hp1, beq_iff_eq]
              exact fun he => hei he.symm
            rw [@List.find?_cons_of_neg _ (fun p => p.1 == eid) p
                (List.filterMap (fun i => List.find? (fun p => p.1 == i) store) rest)
                hneq, ih]
            by_cases hin : eid ∈ rest
            · rw [if_pos hin, if_pos (List.mem_cons_of_mem i hin)]
            · rw [if_neg hin, if_neg (by simp [hei, hin])]

/-- The records produced by the diff loop carry ids drawn from the parser
output. -/
theorem diff_entries_ids (h : String → String) (dict : String → Option String) :
    ∀ (em : List (String × String)) (r : FeedEntryRecord),
      r ∈ (diff_entries h dict em).1 → r.entry_id ∈ em.map Prod.fst := by
  intro em
  induction em with
  | nil => intro r hr; simp [diff_entries] at hr
  | cons p rest ih =>
      intro r hr
      obtain ⟨i, ci⟩ := p
      simp only [diff_entries] at hr
      by_cases hseen : entry_seen dict i (h ci) = true
      · rw [if_pos hseen] at hr
        simp only [List.map_cons, List.mem_cons]
        exact Or.inr (ih r hr)
      · rw [if_neg hseen] at hr
        rcases List.mem_cons.mp hr with hhead | htail
        · simp only [List.map_cons, List.mem_cons]
          exact Or.inl (by rw [hhead]; rfl)
        · simp only [List.map_cons, List.mem_cons]
          exact Or.inr (ih r htail)

/-- For parser output with distinct ids, the diff loop's record for a given
entry exists — and is exactly the freshly hashed record — iff the dict does
not already bind the id to the same hash. -/
theorem diff_entries_find? (h : String → String) (dict : String → Option String) :
    ∀ (em : List (String × String)), (em.map Prod.fst).Nodup →
      ∀ eid c, (eid, c) ∈ em →
        (diff_entries h dict em).1.find? (fun r => r.entry_id == eid) =
          (if dict eid == some (h c) then none
           else some (FeedEntryRecord.create_entry_for_topic h eid (h c))) := by
  intro em
  induction em with
  | nil => intro _ eid c hmem; simp at hmem
  | cons p rest ih =>
      intro hnd eid c hmem
      obtain ⟨i, ci⟩ := p
      simp only [List.map_cons, List.nodup_cons] at hnd
      rcases List.mem_cons.mp hmem with heq | hmem2
      · have h1 : eid = i := congrArg Prod.fst heq
        have h2 : c = ci := congrArg Prod.snd heq
        subst h1
        subst h2
        simp only [diff_entries]
        rw [entry_seen_eq_beq]
        by_cases hd : (dict eid == some (h c)) = true
        · rw [if_pos hd, if_pos hd]
          rw [List.find?_eq_none]
          intro r hr
          have hid := diff_entries_ids h dict rest r hr
          simp only [beq_iff_eq]
          intro hre
          exact hnd.1 (hre ▸ hid)
        · rw [if_neg hd, if_neg hd]
          show List.find? (fun r => r.entry_id == eid)
              (FeedEntryRecord.create_entry_for_topic h eid (h c) ::
                (diff_entries h dict rest).1) =
            some (FeedEntryRecord.create_entry_for_topic h eid (h c))
          exact @List.find?_cons_of_pos _ (fun r => r.entry_id == eid)
            (FeedEntryRecord.create_entry_for_topic h eid (h c))
            ((diff_entries h dict rest).1)
            (by simp [FeedEntryRecord.create_entry_for_topic])
      · have heidrest : eid ∈ rest.map Prod.fst :=
          List.mem_map_of_mem Prod.fst hmem2
        have hne : eid ≠ i := fun he => hnd.1 (he ▸ heidrest)
        simp only [diff_entries]
        by_cases hseen : entry_seen dict i (h ci) = true
        · rw [if_pos hseen]
          exact ih hnd.2 eid c hmem2
        · rw [if_neg hseen]
          have hneq : ¬(((FeedEntryRecord.create_entry_for_topic h i
              (h ci)).entry_id == eid) = true) := by
            simp only [FeedEntryRecord.create_entry_for_topic, beq_iff_eq]
            exact fun he => hne he.symm
          show List.find? (fun r => r.entry_id == eid)
              (FeedEntryRecord.create_entry_for_topic h i (h ci) ::
                (diff_entries h dict rest).1) =
            (if (dict eid == some (h c)) = true then none
             else some (FeedEntryRecord.create_entry_for_topic h eid (h c)))
          rw [@List.find?_cons_of_neg _ (fun r => r.entry_id == eid)
            (FeedEntryRecord.create_entry_for_topic h i (h ci))
            ((diff_entries h dict rest).1) hneq]
          exact ih hnd.2 eid c hmem2

/-- A kept entry's raw content appears among the returned payloads. -/
theorem diff_entries_payload (h : String → String) (dict : String → Option String) :
    ∀ (em : List (String × String)) (eid c : String), (eid, c) ∈ em →
      ¬ dict eid = some (h c) → c ∈ (diff_entries h dict em).2 := by
  intro em
  induction em with
  | nil => intro eid c hmem _; simp at hmem
  | cons p rest ih =>
      intro eid c hmem hne
      obtain ⟨i, ci⟩ := p
      rcases List.mem_cons.mp hmem with heq | hmem2
      · have h1 : eid = i := congrArg Prod.fst heq
        have h2 : c = ci := congrArg Prod.snd heq
        subst h1
        subst h2
        simp only [diff_entries]
        have hseen : entry_seen dict eid (h c) = false := by
          rw [entry_seen_eq_beq, beq_eq_false_iff_ne]
          exact fun habs => hne habs
        rw [if_neg (by simp [hseen])]
        exact List.mem_cons_self _ _
      · simp only [diff_entries]
        by_cases hseen : entry_seen dict i (h ci) = true
        · rw [if_pos hseen]
          exact ih eid c hmem2 hne
        · rw [if_neg hseen]
          exact List.mem_cons_of_mem _ (ih eid c hmem2 hne)

/-- When the dict already binds every entry to its current hash, the diff
loop finds nothing. -/
theorem diff_entries_all_skip (h : String → String) (dict : String → Option String) :
    ∀ em : List (String × String), (∀ p ∈ em, dict p.1 = some (h p.2)) →
      diff_entries h dict em = ([], []) := by
  intro em
  induction em with
  | nil => intro _; rfl
  | cons p rest ih =>
      intro hall
      obtain ⟨i, ci⟩ := p
      simp only [diff_entries]
      have hseen : entry_seen dict i (h ci) = true := by
        rw [entry_seen_eq_beq, beq_iff_eq]
        exact hall (i, ci) (List.mem_cons_self _ _)
      rw [if_pos hseen]
      exact ih (fun q hq => hall q (List.mem_cons_of_mem _ hq))

/-- Filtering does not change a lookup whose matches all pass the filter. -/
theorem find?_filter_of_imp {α : Type} (q pr : α → Bool) :
    ∀ l : List α, (∀ x ∈ l, q x = true → pr x = true) →
      (l.filter pr).find? q = l.find? q := by
  intro l
  induction l with
  | nil => intro _; rfl
  | cons a rest ih =>
      intro himp
      by_cases hpa : pr a = true
      · rw [List.filter_cons_of_pos hpa]
        by_cases hqa : q a = true
        · rw [List.find?_cons_of_pos _ hqa, List.find?_cons_of_pos _ hqa]
        · rw [List.find?_cons_of_neg _ (by simpa using hqa),
            List.find?_cons_of_neg _ (by simpa using hqa)]
          exact ih (fun x hx => himp x (List.mem_cons_of_mem a hx))
      · rw [List.filter_cons_of_neg (by simpa using hpa)]
        have hqa : q a = false := by
          by_contra hq
          exact hpa (himp a (List.mem_cons_self a rest) (by simpa using hq))
        rw [List.find?_cons_of_neg _ (by simp [hqa])]
        exact ih (fun x hx => himp x (List.mem_cons_of_mem a hx))

/-- Looking up a key among record-derived pairs is looking it up among the
records. -/
theorem find?_pair_map (eid : String) :
    ∀ recs : List FeedEntryRecord,
      (recs.map (fun r => (r.entry_id, r.entry_content_hash))).find?
          (fun p => p.1 == eid) =
        (recs.find? (fun r => r.entry_id == eid)).map
          (fun r => (r.entry_id, r.entry_content_hash)) := by
  intro recs
  induction recs with
  | nil => rfl
  | cons r rest ih =>
      simp only [List.map_cons]
      by_cases hr : (r.entry_id == eid) = true
      · rw [@List.find?_cons_of_pos _ (fun p => p.1 == eid)
            (r.entry_id, r.entry_content_hash)
            (List.map (fun r => (r.entry_id, r.entry_content_hash)) rest)
            (by simpa using hr),
          @List.find?_cons_of_pos _ (fun r => r.entry_id == eid) r rest hr]
        rfl
      · rw [@List.find?_cons_of_neg _ (fun p => p.1 == eid)
            (r.entry_id, r.entry_content_hash)
            (List.map (fun r => (r.entry_id, r.entry_content_hash)) rest)
            (by simpa using hr),
          @List.find?_cons_of_neg _ (fun r => r.entry_id == eid) r rest hr]
        exact ih

/-- Claim C3: for every `(entry_id, raw_entry_xml)` pair in the parser
output (ids distinct, as keys of a Python dict), the entry is included in
the records and payloads returned by `find_feed_updates` iff no
`FeedEntryRecord` for the id is stored or the stored `entry_content_hash`
differs from the hash of the raw entry; consequently, running
`find_feed_updates` again on the same parser output after the first run's
records are stored yields zero new entries. -/
theorem claim_C3_diff_iff_idempotent (h : String → String) (store : EntryStore)
    (entries_map : List (String × String))
    (hnd : (entries_map.map Prod.fst).Nodup) :
    (∀ eid content, (eid, content) ∈ entries_map →
      ((∃ r ∈ (find_feed_updates h store entries_map).1, r.entry_id = eid) ↔
        ((store.find? (fun p => p.1 == eid)).map Prod.snd = none ∨
         (store.find? (fun p => p.1 == eid)).map Prod.snd ≠ some (h content))) ∧
      ((store.find? (fun p => p.1 == eid)).map Prod.snd ≠ some (h content) →
        content ∈ (find_feed_updates h store entries_map).2)) ∧
    find_feed_updates h
      (put_records store (find_feed_updates h store entries_map).1)
      entries_map = ([], []) := by
  have hunfold : find_feed_updates h store entries_map =
      diff_entries h (fun eid =>
        ((get_entries_for_topic store (entries_map.map Prod.fst)).find?
          (fun p => p.1 == eid)).map Prod.snd) entries_map := rfl
  have hdicteq : ∀ eid, eid ∈ entries_map.map Prod.fst →
      ((get_entries_for_topic store (entries_map.map Prod.fst)).find?
        (fun p => p.1 == eid)).map Prod.snd =
      (store.find? (fun p => p.1 == eid)).map Prod.snd := by
    intro eid hmem
    rw [find?_get_entries, if_pos hmem]
  constructor
  · intro eid content hmem
    have hkey : eid ∈ entries_map.map Prod.fst :=
      List.mem_map_of_mem Prod.fst hmem
    have hfind := diff_entries_find? h (fun eid2 =>
        ((get_entries_for_topic store (entries_map.map Prod.fst)).find?
          (fun p => p.1 == eid2)).map Prod.snd) entries_map hnd eid content hmem
    simp only at hfind
    simp only [hdicteq eid hkey] at hfind
    rw [← hunfold] at hfind
    constructor
    · constructor
      · rintro ⟨r, hr, hre⟩
        by_cases hs : (store.find? (fun p => p.1 == eid)).map Prod.snd =
            some (h content)
        · exfalso
          have hcond : ((store.find? (fun p => p.1 == eid)).map Prod.snd ==
              some (h content)) = true := by
            rw [beq_iff_eq]
            exact hs
          rw [if_pos hcond] at hfind
          exact List.find?_eq_none.mp hfind r hr (by simpa using hre)
        · exact Or.inr hs
      · intro hdis
        have hs : (store.find? (fun p => p.1 == eid)).map Prod.snd ≠
            some (h content) := by
          rcases hdis with hnone | hne2
          · rw [hnone]
            simp
          · exact hne2
        have hcond : ((store.find? (fun p => p.1 == eid)).map Prod.snd ==
            some (h content)) = false := by
          rw [beq_eq_false_iff_ne]
          exact hs
        rw [if_neg (by simp [hcond])] at hfind
        exact ⟨FeedEntryRecord.create_entry_for_topic h eid (h content),
          List.mem_of_find?_eq_some hfind, rfl⟩
    · intro hs
      show content ∈ (diff_entries h (fun eid2 =>
        ((get_entries_for_topic store (entries_map.map Prod.fst)).find?
          (fun p => p.1 == eid2)).map Prod.snd) entries_map).2
      apply diff_entries_payload h _ entries_map eid content hmem
      rw [hdicteq eid hkey]
      exact hs
  · show diff_entries h (fun eid =>
        ((get_entries_for_topic
            (put_records store (find_feed_updates h store entries_map).1)
            (entries_map.map Prod.fst)).find?
          (fun p => p.1 == eid)).map Prod.snd) entries_map = ([], [])
    apply diff_entries_all_skip
    intro p hp
    obtain ⟨eid, c⟩ := p
    have hkey : eid ∈ entries_map.map Prod.fst := List.mem_map_of_mem Prod.fst hp
    show ((get_entries_for_topic
        (put_records store (find_feed_updates h store entries_map).1)
        (entries_map.map Prod.fst)).find? (fun p2 => p2.1 == eid)).map Prod.snd =
      some (h c)
    rw [find?_get_entries, if_pos hkey]
    have hfind := diff_entries_find? h (fun eid2 =>
        ((get_entries_for_topic store (entries_map.map Prod.fst)).find?
          (fun p2 => p2.1 == eid2)).map Prod.snd) entries_map hnd eid c hp
    simp only at hfind
    simp only [hdicteq eid hkey] at hfind
    rw [← hunfold] at hfind
    unfold put_records
    rw [List.find?_append, find?_pair_map]
    by_cases hs : (store.find? (fun p2 => p2.1 == eid)).map Prod.snd = some (h c)
    · have hcond : ((store.find? (fun p2 => p2.1 == eid)).map Prod.snd ==
          some (h c)) = true := by
        rw [beq_iff_eq]
        exact hs
      rw [if_pos hcond] at hfind
      rw [hfind]
      simp only [Option.map_none', Option.none_or]
      rw [find?_filter_of_imp]
      · exact hs
      · intro x hx hq
        have hx1 : x.1 = eid := by simpa using hq
        rw [hx1]
        simp only [Bool.not_eq_true']
        rw [List.any_eq_false]
        intro r hr
        exact List.find?_eq_none.mp hfind r hr
    · have hcond : ((store.find? (fun p2 => p2.1 == eid)).map Prod.snd ==
          some (h c)) = false := by
        rw [beq_eq_false_iff_ne]
        exact hs
      rw [if_neg (by simp [hcond])] at hfind
      rw [hfind]
      simp [FeedEntryRecord.create_entry_for_topic]

/-- Witness for claim C3: a parser output with one already-stored entry and
one new one; the new entry is included, its payload returned, and a second
run after storing the records finds nothing. -/
theorem claim_C3_witness :
    (∃ r ∈ (find_feed_updates (fun s => s) [("e1", "c1")]
        [("e1", "c1"), ("e2", "c2")]).1, r.entry_id = "e2") ∧
    "c2" ∈ (find_feed_updates (fun s => s) [("e1", "c1")]
        [("e1", "c1"), ("e2", "c2")]).2 ∧
    find_feed_updates (fun s => s)
      (put_records [("e1", "c1")] (find_feed_updates (fun s => s) [("e1", "c1")]
        [("e1", "c1"), ("e2", "c2")]).1)
      [("e1", "c1"), ("e2", "c2")] = ([], []) := by
  have hmain := claim_C3_diff_iff_idempotent (fun s => s) [("e1", "c1")]
    [("e1", "c1"), ("e2", "c2")] (by decide)
  refine ⟨?_, ?_, hmain.2⟩
  · exact (hmain.1 "e2" "c2" (by decide)).1.mpr (Or.inr (by decide))
  · exact (hmain.1 "e2" "c2" (by decide)).2 (by decide)
